import Mathlib

/-!
Verification of the `iced-node-editor` graph container
(`src/iced_node_editor/src/graph_container.rs`).

The event-arbitration logic of `GraphContainer::on_event` is embedded as a
pure function over rational coordinates (each `f32` scalar of the source is
modelled as a rational number; the source performs only comparisons,
additions, subtractions, multiplications and divisions on them in the parts
embedded here).  Shell publishes are modelled as an ordered list of `Intent`
values, and the persistent widget state (`drag_start_position`) is passed
explicitly.  Child widgets are abstracted by their `on_event` response, and
the container records which children were handed the event.

`normalize_scale` and the guideline drawing of `draw` use `log2`/`powf`, so
those are embedded over the real numbers.  Rust `Option::unwrap` (a panic on
`None`) is modelled by `Except Unit`.
-/

namespace IcedNodeEditor

/-- Socket role, mirroring `SocketRole { In, Out }` of the crate. -/
inductive SocketRole
  | In
  | Out
deriving DecidableEq, Repr

/-- A 2-D point with rational coordinates, mirroring `iced::Point`. -/
structure Point where
  x : ℚ
  y : ℚ
deriving DecidableEq, Repr

/-- An axis-aligned rectangle, mirroring `iced::Rectangle`. -/
structure Rect where
  x : ℚ
  y : ℚ
  width : ℚ
  height : ℚ
deriving DecidableEq, Repr

/-- `iced::Rectangle::contains` (external toolkit dependency): the rectangle
is closed on its top/left edges and open on its bottom/right edges. -/
def Rect.contains (r : Rect) (p : Point) : Bool :=
  decide (r.x ≤ p.x) && decide (p.x < r.x + r.width) &&
    decide (r.y ≤ p.y) && decide (p.y < r.y + r.height)

/-- Modelled from the spec: `LogicalEndpoint` lives in `connection.rs`, which
is not under `src/`.  Spec §3: a triple `(node_index, role, socket_index)`. -/
structure LogicalEndpoint where
  node_index : ℕ
  role : SocketRole
  socket_index : ℕ
deriving DecidableEq, Repr

/-- Modelled from the spec: `Endpoint` lives in `connection.rs`, which is not
under `src/`.  Spec §3: tagged union of a logical socket or an absolute
point. -/
inductive Endpoint
  | Socket (e : LogicalEndpoint)
  | Absolute (p : Point)
deriving DecidableEq, Repr

/-- Modelled from the spec: `Link` lives in `connection.rs`, which is not
under `src/`.  Spec §3: an ordered pair of endpoints.  (`from` is a Lean
keyword, hence the field names.) -/
structure Link where
  from_endpoint : Endpoint
  to_endpoint : Endpoint
deriving DecidableEq, Repr

/-- Whether an endpoint is a socket with role `Out`. -/
def Endpoint.isOutSocket : Endpoint → Bool
  | .Socket e => e.role = SocketRole.Out
  | .Absolute _ => false

/-- Whether an endpoint is a socket with role `In`. -/
def Endpoint.isInSocket : Endpoint → Bool
  | .Socket e => e.role = SocketRole.In
  | .Absolute _ => false

/-- Modelled from the spec: `Link::from_unordered` lives in `connection.rs`,
which is not under `src/`.  Spec §4.3: "returns `(out-like, in-like)` using
the rule: if exactly one endpoint is `Socket` with role `Out`, put it first;
else if exactly one has role `In`, put the other first; otherwise preserve
input order." -/
def Link.from_unordered (a b : Endpoint) : Link :=
  if a.isOutSocket && !b.isOutSocket then ⟨a, b⟩
  else if b.isOutSocket && !a.isOutSocket then ⟨b, a⟩
  else if a.isInSocket && !b.isInSocket then ⟨b, a⟩
  else if b.isInSocket && !a.isInSocket then ⟨a, b⟩
  else ⟨a, b⟩

/-- Modelled from the spec: `Matrix` lives in `matrix.rs`, which is not under
`src/`.  Spec §3: the matrix supports only uniform scale and translation, and
the container consumes it exclusively through the two queries `get_scale`
(strictly positive) and `get_translation` `(tx, ty)`; we model exactly those
queries. -/
structure Matrix where
  scaleFactor : ℚ
  tx : ℚ
  ty : ℚ
deriving DecidableEq, Repr

/-- Query of the current uniform scale (spec §3 / §4.1). -/
def Matrix.get_scale (m : Matrix) : ℚ := m.scaleFactor

/-- Query of the current translation (spec §3 / §4.1). -/
def Matrix.get_translation (m : Matrix) : ℚ × ℚ := (m.tx, m.ty)

/-- The identity transform (scale 1, translation 0). -/
def Matrix.identity : Matrix := ⟨1, 0, 0⟩

/-- Modelled from the spec: `SocketLayoutState` lives in `node_element.rs`,
which is not under `src/`.  Spec §3: two parallel structures indexed by node
position, each a sequence of blob rectangles in container-local unscaled
pre-translation coordinates, plus a `done` flag. -/
structure SocketLayoutState where
  inputs : List (List Rect)
  outputs : List (List Rect)
  done : Bool
deriving DecidableEq, Repr

/-- Mouse buttons, mirroring `iced::mouse::Button` (extra buttons collapsed). -/
inductive MouseButton
  | Left
  | Right
  | Middle
  | OtherButton
deriving DecidableEq, Repr

/-- Scroll delta, mirroring `iced::mouse::ScrollDelta`. -/
inductive ScrollDelta
  | Lines (x y : ℚ)
  | Pixels (x y : ℚ)
deriving DecidableEq, Repr

/-- The vertical component of a scroll delta. -/
def ScrollDelta.y : ScrollDelta → ℚ
  | .Lines _ y => y
  | .Pixels _ y => y

/-- Mouse events, mirroring `iced::mouse::Event`. -/
inductive MouseEvent
  | ButtonPressed (b : MouseButton)
  | ButtonReleased (b : MouseButton)
  | CursorMoved (position : Point)
  | WheelScrolled (delta : ScrollDelta)
  | CursorEntered
  | CursorLeft
deriving DecidableEq, Repr

/-- Events, mirroring `iced::Event`; all non-mouse variants (keyboard,
window, touch) are collapsed into `NonMouse` since `on_event` treats them
uniformly. -/
inductive Event
  | Mouse (m : MouseEvent)
  | NonMouse
deriving DecidableEq, Repr

/-- Event status, mirroring `iced::event::Status`. -/
inductive Status
  | Ignored
  | Captured
deriving DecidableEq, Repr

/-- `iced::event::Status::merge`: captured if either side captured. -/
def Status.merge : Status → Status → Status
  | .Ignored, b => b
  | .Captured, _ => .Captured

/-- The cursor, mirroring `iced::mouse::Cursor`. -/
inductive Cursor
  | Available (p : Point)
  | Unavailable
deriving DecidableEq, Repr

/-- `iced::mouse::Cursor::position_in`: the cursor position relative to the
origin of `bounds`, when the cursor is available and inside `bounds`. -/
def Cursor.position_in (c : Cursor) (bounds : Rect) : Option Point :=
  match c with
  | .Available p =>
    if bounds.contains p then some ⟨p.x - bounds.x, p.y - bounds.y⟩ else none
  | .Unavailable => none

/-- A message published to the shell by the container, one constructor per
configurable intent handler of `GraphContainer`. -/
inductive Intent
  | translateBy (dx dy : ℚ)
  | scaleAt (x y : ℚ) (delta : ℚ)
  | connect (l : Link)
  | disconnect (e : LogicalEndpoint) (world : Point)
  | dangling (v : Option (LogicalEndpoint × Link))
deriving DecidableEq, Repr

/-- Which of the five optional intent handlers (`on_translate`, `on_scale`,
`on_connect`, `on_disconnect`, `on_dangling`) are configured (`Some`) on the
container. -/
structure Handlers where
  on_translate : Bool
  on_scale : Bool
  on_connect : Bool
  on_disconnect : Bool
  on_dangling : Bool
deriving DecidableEq, Repr

/-- The `GraphContainer` fields consumed by `on_event`.  Each child widget in
`content` is abstracted by its `on_event` response to the forwarded event. -/
structure GraphContainer where
  matrix : Matrix
  handlers : Handlers
  dangling_source : Option LogicalEndpoint
  socket_state : SocketLayoutState
  content : List (Event → Status)

/-- The persistent widget state `GraphContainerState`. -/
structure GraphContainerState where
  drag_start_position : Option Point
deriving DecidableEq, Repr

/-- `GraphContainer::try_emit_dangling`: publish the dangling link for
`source` anchored at `cursor_position`, when `on_dangling` is configured. -/
def try_emit_dangling (gc : GraphContainer) (cursor_position : Point)
    (source : LogicalEndpoint) : List Intent :=
  if gc.handlers.on_dangling then
    [Intent.dangling (some (source,
      Link.from_unordered (Endpoint.Socket source)
        (Endpoint.Absolute cursor_position)))]
  else []

/-- `translated_cursor_position` of `on_event`: the in-container cursor with
the viewport translation removed (the pre-translation frame). -/
def pre_translation_point (m : Matrix) (cursor_position : Point) : Point :=
  ⟨cursor_position.x - m.get_translation.1, cursor_position.y - m.get_translation.2⟩

/-- `translated_descaled_cursor_position` of `on_event`: the pre-translation
cursor divided by the viewport scale (world coordinates). -/
def world_point (m : Matrix) (cursor_position : Point) : Point :=
  ⟨(pre_translation_point m cursor_position).x / m.get_scale,
   (pre_translation_point m cursor_position).y / m.get_scale⟩

/-- The socket hit-test loop body of `on_event` for one role: fold over the
per-node socket rectangle lists (node index ascending, socket index
ascending), replacing the accumulator on every rectangle that contains `p`. -/
def hitTestRole (role : SocketRole) (node_sockets : List (List Rect))
    (p : Point) (acc : Option LogicalEndpoint) : Option LogicalEndpoint :=
  node_sockets.enum.foldl
    (fun acc1 ns =>
      ns.2.enum.foldl
        (fun acc2 sr =>
          if sr.2.contains p then some ⟨ns.1, role, sr.1⟩ else acc2)
        acc1)
    acc

/-- The full socket hit-test of `on_event`: the loop runs over
`[(In, inputs), (Out, outputs)]` in that order, so the `Out` pass receives
the accumulator produced by the `In` pass and the last match wins. -/
def hovered_socket (ss : SocketLayoutState) (p : Point) : Option LogicalEndpoint :=
  hitTestRole SocketRole.Out ss.outputs p (hitTestRole SocketRole.In ss.inputs p none)

/-- Priority 1 of `on_event` (socket-related processing, source lines
298–400): returns the status of this phase together with the intents it
publishes. -/
def socket_phase (gc : GraphContainer) (event : Event) (bounds : Rect)
    (cursor : Cursor) : Status × List Intent :=
  match event with
  | .Mouse mouse_event =>
    match cursor.position_in bounds with
    | some cursor_position =>
      let translated_cursor_position := pre_translation_point gc.matrix cursor_position
      let translated_descaled_cursor_position := world_point gc.matrix cursor_position
      let hovered := hovered_socket gc.socket_state translated_cursor_position
      match mouse_event with
      | .ButtonPressed .Left =>
        match hovered with
        | some hs =>
          match hs.role with
          | .In =>
            (Status.Captured,
              if gc.handlers.on_disconnect then
                [Intent.disconnect hs translated_descaled_cursor_position]
              else [])
          | .Out =>
            (Status.Captured,
              try_emit_dangling gc translated_descaled_cursor_position hs)
        | none => (Status.Ignored, [])
      | .CursorMoved _ =>
        match gc.dangling_source with
        | some ds =>
          (Status.Captured,
            try_emit_dangling gc translated_descaled_cursor_position ds)
        | none => (Status.Ignored, [])
      | .ButtonReleased .Left =>
        match gc.dangling_source with
        | some ds =>
          let cancel := if gc.handlers.on_dangling then [Intent.dangling none] else []
          let connectMsgs :=
            match hovered with
            | some hs =>
              if ds.role ≠ hs.role ∧ ds.node_index ≠ hs.node_index then
                if gc.handlers.on_connect then
                  [Intent.connect (Link.from_unordered (Endpoint.Socket ds)
                    (Endpoint.Socket hs))]
                else []
              else []
            | none => []
          (Status.Captured, cancel ++ connectMsgs)
        | none => (Status.Ignored, [])
      | _ => (Status.Ignored, [])
    | none => (Status.Ignored, [])
  | .NonMouse => (Status.Ignored, [])

/-- The outcome of one `on_event` call: the returned status, the new
`drag_start_position`, the intents published to the shell in publish order,
and the indices (into `content`) of the children the event was forwarded to,
in dispatch order. -/
structure EventResult where
  status : Status
  drag_start_position : Option Point
  messages : List Intent
  children_received : List ℕ
deriving DecidableEq, Repr

/-- The child-delegation loop of `on_event` (priority 3): walk the given
(index, child) pairs, merging each child's status into the running status and
stopping as soon as the merged status is `Captured`.  Returns the final
status and the indices of the children that received the event. -/
def dispatch_children (children : List (ℕ × (Event → Status))) (event : Event)
    (status : Status) : Status × List ℕ :=
  match children with
  | [] => (status, [])
  | c :: rest =>
    let st := status.merge (c.2 event)
    if st = Status.Captured then (st, [c.1])
    else
      let r := dispatch_children rest event st
      (r.1, c.1 :: r.2)

/-- Priorities 2 and 3 of `on_event` (source lines 406–455): if a viewport
drag is in progress handle it (and never consult the children); otherwise
forward the event to the children in reverse storage order. -/
def phase23 (gc : GraphContainer) (state : GraphContainerState) (event : Event)
    (bounds : Rect) (cursor : Cursor) : EventResult :=
  match state.drag_start_position with
  | some start =>
    match cursor.position_in bounds with
    | some cursor_position =>
      match event with
      | .Mouse (.ButtonReleased .Left) =>
        ⟨Status.Ignored, none, [], []⟩
      | .Mouse (.CursorMoved _) =>
        ⟨Status.Captured, some cursor_position,
          if gc.handlers.on_translate then
            [Intent.translateBy (cursor_position.x - start.x) (cursor_position.y - start.y)]
          else [], []⟩
      | _ => ⟨Status.Ignored, some start, [], []⟩
    | none => ⟨Status.Ignored, some start, [], []⟩
  | none =>
    let d := dispatch_children gc.content.enum.reverse event Status.Ignored
    ⟨d.1, none, [], d.2⟩

/-- Priority 4 of `on_event` (viewport gesture initiation, source lines
457–483): runs only when the status is still `Ignored`; a left press starts a
viewport drag, a wheel scroll publishes `on_scale` when that handler is
configured. -/
def phase4 (gc : GraphContainer) (event : Event) (bounds : Rect)
    (cursor : Cursor) (mid : EventResult) : EventResult :=
  if mid.status = Status.Ignored then
    match cursor.position_in bounds with
    | some cursor_position =>
      match event with
      | .Mouse (.ButtonPressed .Left) =>
        { mid with
          status := Status.Captured
          drag_start_position := some cursor_position }
      | .Mouse (.WheelScrolled delta) =>
        if gc.handlers.on_scale then
          { mid with
            status := Status.Captured
            messages := mid.messages ++
              [Intent.scaleAt cursor_position.x cursor_position.y delta.y] }
        else mid
      | _ => mid
    | none => mid
  else mid

/-- `GraphContainer::on_event` (source lines 280–486): socket phase first,
returning immediately when it captures; otherwise viewport drag or child
delegation, then gesture initiation.  Published intents accumulate across the
phases in publish order. -/
def on_event (gc : GraphContainer) (state : GraphContainerState) (event : Event)
    (bounds : Rect) (cursor : Cursor) : EventResult :=
  let sp := socket_phase gc event bounds cursor
  if sp.1 = Status.Captured then
    ⟨Status.Captured, state.drag_start_position, sp.2, []⟩
  else
    let fin := phase4 gc event bounds cursor (phase23 gc state event bounds cursor)
    { fin with messages := sp.2 ++ fin.messages }

/-! ### Hit-test refinement (claim C2)

`spec_hovered_socket` below is stated from the spec's words (spec §4.4,
priority 1): enumerate every socket rectangle — inputs before outputs, node
index ascending, socket index ascending — and let the last rectangle that
contains the query point win.  The refinement theorem identifies it with the
`hovered_socket` fold translated from the source. -/

/-- One step of the hit-test fold: replace the accumulator whenever the
candidate's rectangle contains `p`. -/
def hitStep (p : Point) (acc : Option LogicalEndpoint)
    (c : LogicalEndpoint × Rect) : Option LogicalEndpoint :=
  if c.2.contains p then some c.1 else acc

/-- The candidate `(endpoint, blob rectangle)` pairs of one role, node index
ascending, socket index ascending. -/
def roleCandidates (role : SocketRole) (node_sockets : List (List Rect)) :
    List (LogicalEndpoint × Rect) :=
  node_sockets.enum.flatMap fun ns =>
    ns.2.enum.map fun sr => (⟨ns.1, role, sr.1⟩, sr.2)

/-- Stated from the spec's words: the full candidate enumeration, inputs
before outputs. -/
def spec_hit_candidates (ss : SocketLayoutState) : List (LogicalEndpoint × Rect) :=
  roleCandidates SocketRole.In ss.inputs ++ roleCandidates SocketRole.Out ss.outputs

/-- Stated from the spec's words: the hovered socket is the endpoint of the
last candidate rectangle containing the query point. -/
def spec_hovered_socket (ss : SocketLayoutState) (p : Point) : Option LogicalEndpoint :=
  (((spec_hit_candidates ss).filter fun c => c.2.contains p).getLast?).map Prod.fst

/-- Stated from the spec's words (§4.4, priority 3): forward the event to
the children in reverse storage order, stopping at (and including) the first
child that captures; the result lists the indices of the children that
received the event. -/
def spec_dispatch : List (ℕ × (Event → Status)) → Event → List ℕ
  | [], _ => []
  | c :: rest, e => if c.2 e = Status.Captured then [c.1] else c.1 :: spec_dispatch rest e

/-! ### `normalize_scale` and `draw` (real-valued part)

`normalize_scale` (source lines 713–721) uses `log2`/`floor`/`powf`, so it
and the guideline geometry of `draw` are embedded over the real numbers;
every other `f32` value stays rational. -/

/-- `f32::EPSILON`, the machine epsilon of an IEEE-754 single, `2 ^ (-23)`. -/
noncomputable def epsilonF32 : ℝ := 1 / 2 ^ 23

/-- `normalize_scale` (source lines 713–721): divide the scale by the
largest power of two below it; the `abs > EPSILON` test guards the division
when the floored base-2 logarithm is zero. -/
noncomputable def normalize_scale (scale : ℝ) : ℝ :=
  let log_2 : ℝ := ((⌊Real.logb 2 scale⌋ : ℤ) : ℝ)
  if epsilonF32 < |log_2| then scale / (2 : ℝ) ^ log_2 else scale

/-- A color, mirroring `iced::Color` (components in `[0, 1]`). -/
structure ColorT where
  r : ℚ
  g : ℚ
  b : ℚ
  a : ℚ
deriving DecidableEq, Repr

/-- `iced::Color::BLACK`. -/
def colorBLACK : ColorT := ⟨0, 0, 0, 1⟩

/-- `iced::Color::from_rgb8`: byte components scaled into `[0, 1]`. -/
def ColorT.from_rgb8 (r g b : ℕ) : ColorT := ⟨(r : ℚ) / 255, (g : ℚ) / 255, (b : ℚ) / 255, 1⟩

/-- A fill, mirroring `iced::Background` (only the `Color` variant is used
by this widget). -/
inductive BackgroundT
  | Color (c : ColorT)
deriving DecidableEq, Repr

/-- A rectangle with real coordinates, for the drawn quads (guideline
positions involve the real-valued normalized scale). -/
structure RRect where
  x : ℝ
  y : ℝ
  width : ℝ
  height : ℝ

/-- Inclusion of a rational rectangle into the real-valued frame. -/
noncomputable def Rect.toRRect (r : Rect) : RRect := ⟨r.x, r.y, r.width, r.height⟩

/-- One `renderer.fill_quad` call: bounds, border color/width, and fill.
(The border corner radius, constant zero in this file, is omitted.) -/
structure Quad where
  bounds : RRect
  border_color : ColorT
  border_width : ℝ
  background : BackgroundT

/-- Modelled from the spec: the `Appearance` record of
`styles/graph_container.rs`, which is not under `src/`.  Spec §6: optional
`background`, and optional spacing and color for each of the minor, mid and
major guideline series. -/
structure Appearance where
  background : Option BackgroundT
  minor_guidelines_spacing : Option ℚ
  mid_guidelines_spacing : Option ℚ
  major_guidelines_spacing : Option ℚ
  minor_guidelines_color : Option ColorT
  mid_guidelines_color : Option ColorT
  major_guidelines_color : Option ColorT

/-- Rust `Option::unwrap`: the value on `Some`, a panic (modelled as
`Except.error`) on `None`. -/
def unwrapOpt {α : Type} : Option α → Except Unit α
  | some a => .ok a
  | none => .error ()

/-- Truncation toward zero, the rounding of Rust's `%` on floats. -/
noncomputable def rtrunc (x : ℝ) : ℝ := if 0 ≤ x then (⌊x⌋ : ℝ) else (⌈x⌉ : ℝ)

/-- Rust's `%` on floats: remainder with the sign of the dividend. -/
noncomputable def rustRem (a b : ℝ) : ℝ := a - b * rtrunc (a / b)

/-- `draw_background` (source lines 610–628): fill the whole bounds with the
configured background, or the default `rgb8(44, 44, 44)` when the
`background` field is unset (`unwrap_or`). -/
noncomputable def draw_background (bounds : Rect) (style : Appearance) : Quad :=
  ⟨bounds.toRRect, colorBLACK, 0,
    style.background.getD (BackgroundT.Color (ColorT.from_rgb8 44 44 44))⟩

/-- `draw_guidelines` (source lines 630–711): skip the grid when its scaled
spacing is below 5 px, otherwise emit 1-px vertical then horizontal lines
stepped by the scaled spacing, starting one largest-grid edge before the
bounds, skipping lines on or outside the bounds edges. -/
noncomputable def draw_guidelines (bounds : Rect) (offset : ℚ × ℚ) (scale : ℝ)
    (grid_spacing biggest_grid_spacing : ℚ) (color : ColorT) : List Quad :=
  if (grid_spacing : ℝ) * scale < 5 then []
  else
    let edge : ℝ := (biggest_grid_spacing : ℝ) * scale
    let offset_x := rustRem (offset.1 : ℝ) edge
    let offset_y := rustRem (offset.2 : ℝ) edge
    let from_x := -edge + offset_x + (bounds.x : ℝ)
    let to_x := (bounds.x : ℝ) + (bounds.width : ℝ) + edge
    let step : ℝ := (grid_spacing : ℝ) * scale
    let number_of_steps_x := (⌈|(to_x - from_x) / step|⌉).toNat
    let vertical := (List.range number_of_steps_x).filterMap fun i =>
      let x := from_x + (i : ℝ) * step
      if x ≤ (bounds.x : ℝ) ∨ (bounds.x : ℝ) + (bounds.width : ℝ) ≤ x then none
      else some ⟨⟨x, (bounds.y : ℝ), 1, (bounds.height : ℝ)⟩, colorBLACK, 0,
        BackgroundT.Color color⟩
    let from_y := -edge + offset_y + (bounds.y : ℝ)
    let to_y := (bounds.y : ℝ) + (bounds.height : ℝ) + edge
    let number_of_steps_y := (⌈|(to_y - from_y) / step|⌉).toNat
    let horizontal := (List.range number_of_steps_y).filterMap fun i =>
      let y := from_y + (i : ℝ) * step
      if y ≤ (bounds.y : ℝ) ∨ (bounds.y : ℝ) + (bounds.height : ℝ) ≤ y then none
      else some ⟨⟨(bounds.x : ℝ), y, (bounds.width : ℝ), 1⟩, colorBLACK, 0,
        BackgroundT.Color color⟩
    vertical ++ horizontal

/-- The appearance-dependent part of `GraphContainer::draw` (source lines
509–595): fill the background (defaulting when unset), then `unwrap` the
three guideline spacings for the largest spacing, then draw the minor, mid
and major guideline series, each `unwrap`ping its spacing and color again.
An `unwrap` of an unset field panics (`Except.error`).  Child drawing
(which cannot touch the `Appearance` record) is not modelled. -/
noncomputable def draw (style : Appearance) (matrix : Matrix) (bounds : Rect) :
    Except Unit (List Quad) := do
  let backgroundQuad := draw_background bounds style
  let offset := matrix.get_translation
  let scale := matrix.get_scale
  let normalized_scale := normalize_scale (scale : ℝ)
  let minor_sp_a ← unwrapOpt style.minor_guidelines_spacing
  let major_sp_a ← unwrapOpt style.major_guidelines_spacing
  let mid_sp_a ← unwrapOpt style.mid_guidelines_spacing
  let biggest_spacing := max (max minor_sp_a major_sp_a) mid_sp_a
  let minor_sp ← unwrapOpt style.minor_guidelines_spacing
  let minor_col ← unwrapOpt style.minor_guidelines_color
  let minor_quads := draw_guidelines bounds offset normalized_scale minor_sp
    biggest_spacing minor_col
  let mid_sp ← unwrapOpt style.mid_guidelines_spacing
  let mid_col ← unwrapOpt style.mid_guidelines_color
  let mid_quads := draw_guidelines bounds offset normalized_scale mid_sp
    biggest_spacing mid_col
  let major_sp ← unwrapOpt style.major_guidelines_spacing
  let major_col ← unwrapOpt style.major_guidelines_color
  let major_quads := draw_guidelines bounds offset normalized_scale major_sp
    biggest_spacing major_col
  pure (backgroundQuad :: (minor_quads ++ mid_quads ++ major_quads))

/-! ### Concrete fixtures used by the scenario theorem and the witnesses -/

/-- The scenario bounds `(0, 0, 800, 600)`. -/
def wBounds : Rect := ⟨0, 0, 800, 600⟩

/-- All five intent handlers configured. -/
def wHandlers : Handlers := ⟨true, true, true, true, true⟩

/-- A socket buffer: node 1 has one input blob at `(0,0)`–`(10,10)`, node 0
has one output blob at `(100,0)`–`(110,10)`. -/
def wSockets : SocketLayoutState := ⟨[[], [⟨0, 0, 10, 10⟩]], [[⟨100, 0, 10, 10⟩]], true⟩

/-- The draft source: node 0's output socket 0. -/
def wSource : LogicalEndpoint := ⟨0, SocketRole.Out, 0⟩

/-- A container mid-draft: identity transform, all handlers set, dangling
from `wSource`, socket buffer `wSockets`, no children. -/
def gcRelease : GraphContainer := ⟨Matrix.identity, wHandlers, some wSource, wSockets, []⟩

/-- A container with no draft in progress and the `wSockets` buffer. -/
def gcPress : GraphContainer := ⟨Matrix.identity, wHandlers, none, wSockets, []⟩

/-- A bare container: identity transform, all handlers, no draft, empty
socket buffer, no children. -/
def gcPan : GraphContainer := ⟨Matrix.identity, wHandlers, none, ⟨[], [], false⟩, []⟩

/-- A container with three children: children 0 and 2 capture every event,
child 1 ignores every event. -/
def gcChildren : GraphContainer :=
  ⟨Matrix.identity, wHandlers, none, ⟨[], [], false⟩,
    [fun _ => Status.Captured, fun _ => Status.Ignored, fun _ => Status.Captured]⟩

/-- An appearance with every guideline field set but no background. -/
def styleNoBackground : Appearance :=
  ⟨none, some 20, some 100, some 500, some ⟨1, 0, 0, 1⟩, some ⟨0, 1, 0, 1⟩,
    some ⟨0, 0, 1, 1⟩⟩

/-- An appearance with a background but the minor guideline color unset. -/
def styleMissingColor : Appearance :=
  ⟨some (BackgroundT.Color ⟨0, 0, 0, 1⟩), some 20, some 100, some 500, none,
    some ⟨0, 1, 0, 1⟩, some ⟨0, 0, 1, 1⟩⟩

/-! ### Theorems -/

theorem foldl_flatMap_eq {α β γ : Type} (g : α → List β) (f : γ → β → γ) :
    ∀ (l : List α) (a : γ),
      (l.flatMap g).foldl f a = l.foldl (fun a x => (g x).foldl f a) a := by
  intro l
  induction l with
  | nil => intro a; rfl
  | cons x xs ih =>
    intro a
    simp only [List.flatMap_cons, List.foldl_append, List.foldl_cons, ih]

theorem foldl_hitStep_eq (p : Point) (l : List (LogicalEndpoint × Rect)) :
    ∀ acc, l.foldl (hitStep p) acc =
      Option.or (((l.filter fun c => c.2.contains p).getLast?).map Prod.fst) acc := by
  induction l using List.reverseRecOn with
  | nil => intro acc; simp
  | append_singleton xs x ih =>
    intro acc
    rw [List.foldl_append]
    by_cases hx : x.2.contains p = true
    · simp [hitStep, hx, List.filter_append, List.getLast?_concat, Option.or]
    · simp [hitStep, hx, List.filter_append, ih]

theorem hitTestRole_eq (role : SocketRole) (node_sockets : List (List Rect))
    (p : Point) (acc : Option LogicalEndpoint) :
    hitTestRole role node_sockets p acc =
      (roleCandidates role node_sockets).foldl (hitStep p) acc := by
  unfold hitTestRole roleCandidates
  rw [foldl_flatMap_eq]
  simp only [List.foldl_map, hitStep]

theorem hovered_socket_eq_foldl (ss : SocketLayoutState) (p : Point) :
    hovered_socket ss p = (spec_hit_candidates ss).foldl (hitStep p) none := by
  unfold hovered_socket spec_hit_candidates
  rw [List.foldl_append, hitTestRole_eq, hitTestRole_eq]

/-- C2: for every mouse event with the cursor inside the container bounds,
`on_event` computes the in-container cursor as `cursor − bounds.origin`, the
pre-translation cursor as that minus the viewport translation, and the world
cursor as the pre-translation cursor divided by the scale; and the hovered
socket is the last match of the containment test over the socket buffer,
iterating inputs before outputs, node index ascending, socket index
ascending, hence deterministic for fixed buffer contents. -/
theorem cursor_transform_and_hit_test :
    (∀ (q : Point) (bounds : Rect),
      Cursor.position_in (Cursor.Available q) bounds =
        if bounds.contains q then some ⟨q.x - bounds.x, q.y - bounds.y⟩ else none) ∧
    (∀ (m : Matrix) (cp : Point),
      pre_translation_point m cp =
          ⟨cp.x - m.get_translation.1, cp.y - m.get_translation.2⟩ ∧
        world_point m cp =
          ⟨(cp.x - m.get_translation.1) / m.get_scale,
            (cp.y - m.get_translation.2) / m.get_scale⟩) ∧
    (∀ (ss : SocketLayoutState) (pt : Point),
      hovered_socket ss pt = spec_hovered_socket ss pt) := by
  refine ⟨fun q bounds => rfl, fun m cp => ⟨rfl, rfl⟩, fun ss pt => ?_⟩
  rw [hovered_socket_eq_foldl, foldl_hitStep_eq, Option.or_none, spec_hovered_socket]

/-- If the socket phase captured the event, `on_event` returns immediately:
status `Captured`, state unchanged, only the socket-phase messages, and no
child consulted. -/
theorem on_event_captured (gc : GraphContainer) (state : GraphContainerState)
    (event : Event) (bounds : Rect) (cursor : Cursor)
    (h : (socket_phase gc event bounds cursor).1 = Status.Captured) :
    on_event gc state event bounds cursor =
      ⟨Status.Captured, state.drag_start_position,
        (socket_phase gc event bounds cursor).2, []⟩ := by
  simp [on_event, h]

/-- C1: a left release processed while `dangling_source = some source` with
the cursor inside the container bounds first emits `on_dangling none`; then,
exactly when the hit-test finds a hovered socket whose role and node index
both differ from the source's, it additionally emits
`on_connect (Link.from_unordered (Socket source) (Socket target))`; a
same-role or same-node target yields no connect message (and no error); the
status is `Captured` in every case. -/
theorem left_release_dangling_connect (gc : GraphContainer)
    (state : GraphContainerState) (bounds : Rect) (cursor : Cursor)
    (src : LogicalEndpoint) (cp : Point)
    (hds : gc.dangling_source = some src)
    (hd : gc.handlers.on_dangling = true)
    (hc : gc.handlers.on_connect = true)
    (hcur : cursor.position_in bounds = some cp) :
    on_event gc state (.Mouse (.ButtonReleased .Left)) bounds cursor =
      ⟨Status.Captured, state.drag_start_position,
        Intent.dangling none ::
          (match hovered_socket gc.socket_state (pre_translation_point gc.matrix cp) with
           | some hs =>
             if src.role ≠ hs.role ∧ src.node_index ≠ hs.node_index then
               [Intent.connect (Link.from_unordered (Endpoint.Socket src)
                 (Endpoint.Socket hs))]
             else []
           | none => []), []⟩ := by
  have hsp : socket_phase gc (.Mouse (.ButtonReleased .Left)) bounds cursor =
      (Status.Captured,
        Intent.dangling none ::
          (match hovered_socket gc.socket_state (pre_translation_point gc.matrix cp) with
           | some hs =>
             if src.role ≠ hs.role ∧ src.node_index ≠ hs.node_index then
               [Intent.connect (Link.from_unordered (Endpoint.Socket src)
                 (Endpoint.Socket hs))]
             else []
           | none => [])) := by
    simp [socket_phase, hcur, hds, hd, hc]
  rw [on_event_captured gc state _ bounds cursor (by rw [hsp]), hsp]

/-- Witness for C1: a release over node 1's input socket while drafting from
node 0's output socket emits the cancel followed by the connect message. -/
theorem left_release_dangling_connect_witness :
    (gcRelease.dangling_source = some wSource ∧
      gcRelease.handlers.on_dangling = true ∧
      gcRelease.handlers.on_connect = true ∧
      Cursor.position_in (Cursor.Available ⟨5, 5⟩) wBounds = some ⟨5, 5⟩) ∧
    on_event gcRelease ⟨none⟩ (.Mouse (.ButtonReleased .Left)) wBounds
        (.Available ⟨5, 5⟩) =
      ⟨Status.Captured, none,
        [Intent.dangling none,
          Intent.connect ⟨Endpoint.Socket wSource,
            Endpoint.Socket ⟨1, SocketRole.In, 0⟩⟩], []⟩ := by
  have hcur : Cursor.position_in (Cursor.Available ⟨5, 5⟩) wBounds = some ⟨5, 5⟩ := by
    norm_num [Cursor.position_in, Rect.contains, wBounds]
  have hhov : hovered_socket gcRelease.socket_state
      (pre_translation_point gcRelease.matrix ⟨5, 5⟩) = some ⟨1, SocketRole.In, 0⟩ := by
    norm_num [hovered_socket, hitTestRole, gcRelease, wSockets, Rect.contains,
      pre_translation_point, Matrix.get_translation, Matrix.identity,
      List.enum, List.enumFrom]
  refine ⟨⟨rfl, rfl, rfl, hcur⟩, ?_⟩
  rw [left_release_dangling_connect gcRelease ⟨none⟩ wBounds (.Available ⟨5, 5⟩)
    wSource ⟨5, 5⟩ rfl rfl rfl hcur, hhov]
  simp [wSource, Link.from_unordered, Endpoint.isOutSocket, Endpoint.isInSocket]

/-- C3: a left press whose hit-test finds a hovered socket emits
`on_disconnect (endpoint, world)` when the socket's role is `In` and
`on_dangling (some (endpoint, Link (Socket endpoint) (Absolute world)))`
when it is `Out`, where `world` is the pre-translation cursor divided by the
scale; the event is captured and `drag_start_position` is untouched. -/
theorem left_press_on_socket (gc : GraphContainer) (state : GraphContainerState)
    (bounds : Rect) (cursor : Cursor) (hs : LogicalEndpoint) (cp : Point)
    (hcur : cursor.position_in bounds = some cp)
    (hhov : hovered_socket gc.socket_state (pre_translation_point gc.matrix cp) = some hs)
    (hdis : gc.handlers.on_disconnect = true)
    (hdang : gc.handlers.on_dangling = true) :
    on_event gc state (.Mouse (.ButtonPressed .Left)) bounds cursor =
      ⟨Status.Captured, state.drag_start_position,
        (match hs.role with
         | .In => [Intent.disconnect hs (world_point gc.matrix cp)]
         | .Out => [Intent.dangling (some (hs, Link.from_unordered (Endpoint.Socket hs)
             (Endpoint.Absolute (world_point gc.matrix cp))))]), []⟩ := by
  have hsp : socket_phase gc (.Mouse (.ButtonPressed .Left)) bounds cursor =
      (Status.Captured,
        (match hs.role with
         | .In => [Intent.disconnect hs (world_point gc.matrix cp)]
         | .Out => [Intent.dangling (some (hs, Link.from_unordered (Endpoint.Socket hs)
             (Endpoint.Absolute (world_point gc.matrix cp))))])) := by
    rcases hrole : hs.role with _ | _ <;>
      simp [socket_phase, hcur, hhov, hdis, hdang, try_emit_dangling, hrole]
  rw [on_event_captured gc state _ bounds cursor (by rw [hsp]), hsp]

/-- Witness for C3: a left press over node 1's input socket emits the
disconnect message at the world cursor and leaves the drag state `none`. -/
theorem left_press_on_socket_witness :
    (Cursor.position_in (Cursor.Available ⟨5, 5⟩) wBounds = some ⟨5, 5⟩ ∧
      hovered_socket gcPress.socket_state
          (pre_translation_point gcPress.matrix ⟨5, 5⟩) =
        some ⟨1, SocketRole.In, 0⟩ ∧
      gcPress.handlers.on_disconnect = true ∧ gcPress.handlers.on_dangling = true) ∧
    on_event gcPress ⟨none⟩ (.Mouse (.ButtonPressed .Left)) wBounds
        (.Available ⟨5, 5⟩) =
      ⟨Status.Captured, none,
        [Intent.disconnect ⟨1, SocketRole.In, 0⟩ ⟨5, 5⟩], []⟩ := by
  have hcur : Cursor.position_in (Cursor.Available ⟨5, 5⟩) wBounds = some ⟨5, 5⟩ := by
    norm_num [Cursor.position_in, Rect.contains, wBounds]
  have hhov : hovered_socket gcPress.socket_state
      (pre_translation_point gcPress.matrix ⟨5, 5⟩) = some ⟨1, SocketRole.In, 0⟩ := by
    norm_num [hovered_socket, hitTestRole, gcPress, wSockets, Rect.contains,
      pre_translation_point, Matrix.get_translation, Matrix.identity,
      List.enum, List.enumFrom]
  refine ⟨⟨hcur, hhov, rfl, rfl⟩, ?_⟩
  rw [left_press_on_socket gcPress ⟨none⟩ wBounds (.Available ⟨5, 5⟩)
    ⟨1, SocketRole.In, 0⟩ ⟨5, 5⟩ hcur hhov rfl rfl]
  norm_num [world_point, pre_translation_point, Matrix.get_scale,
    Matrix.get_translation, Matrix.identity, gcPress]

theorem no_connect_on_cursor_moved (gc : GraphContainer) (state : GraphContainerState)
    (bounds : Rect) (cursor : Cursor) (pos : Point) (l : Link) :
    Intent.connect l ∉ (on_event gc state (.Mouse (.CursorMoved pos)) bounds cursor).messages := by
  rcases hcur : cursor.position_in bounds with _ | cp
  · have hsp : socket_phase gc (.Mouse (.CursorMoved pos)) bounds cursor =
        (Status.Ignored, []) := by simp [socket_phase, hcur]
    rcases hdrag : state.drag_start_position with _ | start <;>
      simp [on_event, hsp, phase23, phase4, hdrag, hcur, dispatch_children]
  · rcases hds : gc.dangling_source with _ | ds
    · have hsp : socket_phase gc (.Mouse (.CursorMoved pos)) bounds cursor =
          (Status.Ignored, []) := by simp [socket_phase, hcur, hds]
      rcases hdrag : state.drag_start_position with _ | start <;>
        simp [on_event, hsp, phase23, phase4, hdrag, hcur, dispatch_children]
    · have hsp : (socket_phase gc (.Mouse (.CursorMoved pos)) bounds cursor).1 =
          Status.Captured := by simp [socket_phase, hcur, hds]
      rw [on_event_captured gc state _ bounds cursor hsp]
      simp [socket_phase, hcur, hds, try_emit_dangling]

/-- C4: a cursor-moved event processed while `dangling_source = some s` with
the cursor inside bounds publishes exactly one
`on_dangling (some (s, Link (Socket s) (Absolute world)))` message (the same
source with the updated world cursor), captures the event; and no
cursor-moved event ever publishes an `on_connect` message. -/
theorem cursor_moved_dangling_update (gc : GraphContainer)
    (state : GraphContainerState) (bounds : Rect) (cursor : Cursor) (pos : Point)
    (s : LogicalEndpoint) (cp : Point)
    (hds : gc.dangling_source = some s)
    (hd : gc.handlers.on_dangling = true)
    (hcur : cursor.position_in bounds = some cp) :
    on_event gc state (.Mouse (.CursorMoved pos)) bounds cursor =
      ⟨Status.Captured, state.drag_start_position,
        [Intent.dangling (some (s, Link.from_unordered (Endpoint.Socket s)
          (Endpoint.Absolute (world_point gc.matrix cp))))], []⟩ ∧
    (∀ (gc2 : GraphContainer) (state2 : GraphContainerState) (bounds2 : Rect)
        (cursor2 : Cursor) (pos2 : Point) (l : Link),
      Intent.connect l ∉
        (on_event gc2 state2 (.Mouse (.CursorMoved pos2)) bounds2 cursor2).messages) := by
  refine ⟨?_, fun gc2 state2 bounds2 cursor2 pos2 l =>
    no_connect_on_cursor_moved gc2 state2 bounds2 cursor2 pos2 l⟩
  have hsp : socket_phase gc (.Mouse (.CursorMoved pos)) bounds cursor =
      (Status.Captured,
        [Intent.dangling (some (s, Link.from_unordered (Endpoint.Socket s)
          (Endpoint.Absolute (world_point gc.matrix cp))))]) := by
    simp [socket_phase, hcur, hds, hd, try_emit_dangling]
  rw [on_event_captured gc state _ bounds cursor (by rw [hsp]), hsp]

/-- Witness for C4: moving the cursor to `(5, 5)` mid-draft republishes the
dangling link from `wSource` anchored at the world cursor `(5, 5)`. -/
theorem cursor_moved_dangling_update_witness :
    (gcRelease.dangling_source = some wSource ∧
      gcRelease.handlers.on_dangling = true ∧
      Cursor.position_in (Cursor.Available ⟨5, 5⟩) wBounds = some ⟨5, 5⟩) ∧
    on_event gcRelease ⟨none⟩ (.Mouse (.CursorMoved ⟨5, 5⟩)) wBounds
        (.Available ⟨5, 5⟩) =
      ⟨Status.Captured, none,
        [Intent.dangling (some (wSource,
          ⟨Endpoint.Socket wSource, Endpoint.Absolute ⟨5, 5⟩⟩))], []⟩ := by
  have hcur : Cursor.position_in (Cursor.Available ⟨5, 5⟩) wBounds = some ⟨5, 5⟩ := by
    norm_num [Cursor.position_in, Rect.contains, wBounds]
  refine ⟨⟨rfl, rfl, hcur⟩, ?_⟩
  rw [(cursor_moved_dangling_update gcRelease ⟨none⟩ wBounds (.Available ⟨5, 5⟩)
    ⟨5, 5⟩ wSource ⟨5, 5⟩ rfl rfl hcur).1]
  norm_num [world_point, pre_translation_point, Matrix.get_scale,
    Matrix.get_translation, Matrix.identity, gcRelease, wSource,
    Link.from_unordered, Endpoint.isOutSocket, Endpoint.isInSocket]

theorem snd_mem_of_mem_enum {α : Type} {x : ℕ × α} {l : List α}
    (h : x ∈ l.enum) : x.2 ∈ l := by
  rw [List.mem_enum_iff_getElem?] at h
  exact List.getElem?_mem h

theorem dispatch_children_received (e : Event) :
    ∀ (l : List (ℕ × (Event → Status))),
      (dispatch_children l e Status.Ignored).2 = spec_dispatch l e := by
  intro l
  induction l with
  | nil => rfl
  | cons c rest ih =>
    cases hc : c.2 e <;>
      simp [dispatch_children, spec_dispatch, Status.merge, hc, ih]

theorem dispatch_children_all_ignored (e : Event) :
    ∀ (l : List (ℕ × (Event → Status))),
      (∀ c ∈ l, c.2 e = Status.Ignored) →
      dispatch_children l e Status.Ignored = (Status.Ignored, l.map Prod.fst) := by
  intro l
  induction l with
  | nil => intro h; rfl
  | cons c rest ih =>
    intro h
    have hc : c.2 e = Status.Ignored := h c (List.mem_cons_self c rest)
    simp [dispatch_children, Status.merge, hc,
      ih (fun d hd => h d (List.mem_cons_of_mem c hd))]

theorem phase4_preserves_received (gc : GraphContainer) (event : Event)
    (bounds : Rect) (cursor : Cursor) (mid : EventResult) :
    (phase4 gc event bounds cursor mid).children_received = mid.children_received := by
  unfold phase4
  repeat' split <;> try rfl

theorem phase4_preserves_drag_ne_none (gc : GraphContainer) (event : Event)
    (bounds : Rect) (cursor : Cursor) (mid : EventResult)
    (h : mid.drag_start_position ≠ none) :
    (phase4 gc event bounds cursor mid).drag_start_position ≠ none := by
  unfold phase4
  repeat' split
  all_goals first | exact h | simp

theorem phase23_drag_some_received (gc : GraphContainer) (state : GraphContainerState)
    (event : Event) (bounds : Rect) (cursor : Cursor) (start : Point)
    (hdrag : state.drag_start_position = some start) :
    (phase23 gc state event bounds cursor).children_received = [] := by
  simp only [phase23, hdrag]
  repeat' split
  all_goals rfl

theorem phase23_drag_none (gc : GraphContainer) (state : GraphContainerState)
    (event : Event) (bounds : Rect) (cursor : Cursor) (start : Point)
    (hdrag : state.drag_start_position = some start)
    (h : (phase23 gc state event bounds cursor).drag_start_position = none) :
    event = Event.Mouse (MouseEvent.ButtonReleased MouseButton.Left) ∧
      cursor.position_in bounds ≠ none := by
  simp only [phase23, hdrag] at h
  rcases hcur : cursor.position_in bounds with _ | cp
  · rw [hcur] at h; simp at h
  · rw [hcur] at h
    rcases event with m | _
    case NonMouse => simp at h
    case Mouse =>
      rcases m with b | b | p | d | _ | _
      case ButtonReleased =>
        rcases b with _ | _ | _ | _
        case Left => exact ⟨rfl, by simp [hcur]⟩
        all_goals simp at h
      all_goals first | (rcases b with _ | _ | _ | _ <;> simp at h) | simp at h

/-- C5: the pan scenario on a bare container with identity transform and
bounds `(0, 0, 800, 600)`: a left press at `(100, 100)` sets
`drag_start_position` to `(100, 100)`, captures, and publishes nothing; a
cursor move to `(130, 140)` publishes exactly one `on_translate (30, 40)`,
advances `drag_start_position` to `(130, 140)` and captures; a left release
clears `drag_start_position`, publishing nothing. -/
theorem pan_scenario :
    on_event gcPan ⟨none⟩ (.Mouse (.ButtonPressed .Left)) wBounds
        (.Available ⟨100, 100⟩) =
      ⟨Status.Captured, some ⟨100, 100⟩, [], []⟩ ∧
    on_event gcPan ⟨some ⟨100, 100⟩⟩ (.Mouse (.CursorMoved ⟨130, 140⟩)) wBounds
        (.Available ⟨130, 140⟩) =
      ⟨Status.Captured, some ⟨130, 140⟩, [Intent.translateBy 30 40], []⟩ ∧
    on_event gcPan ⟨some ⟨130, 140⟩⟩ (.Mouse (.ButtonReleased .Left)) wBounds
        (.Available ⟨130, 140⟩) =
      ⟨Status.Ignored, none, [], []⟩ := by
  refine ⟨?_, ?_, ?_⟩ <;>
  · simp [on_event, socket_phase, phase23, phase4, Cursor.position_in, Rect.contains,
      pre_translation_point, world_point, hovered_socket, hitTestRole, try_emit_dangling,
      dispatch_children, Matrix.get_translation, Matrix.get_scale, Matrix.identity,
      Status.merge, gcPan, wBounds, wHandlers]
    norm_num
    all_goals decide

/-- C6: an event that the socket phase did not capture, arriving while
`drag_start_position` is `none`, is forwarded to the children in reverse
storage order (last stored child first), stopping as soon as one child
captures — so a child earlier in storage order never receives an event a
later child captured. -/
theorem children_dispatch_reverse_order (gc : GraphContainer)
    (state : GraphContainerState) (event : Event) (bounds : Rect) (cursor : Cursor)
    (hsp : (socket_phase gc event bounds cursor).1 = Status.Ignored)
    (hdrag : state.drag_start_position = none) :
    (on_event gc state event bounds cursor).children_received =
      spec_dispatch gc.content.enum.reverse event := by
  simp only [on_event, hsp]
  simp only [reduceCtorEq, if_false]
  rw [phase4_preserves_received]
  simp [phase23, hdrag, dispatch_children_received]

/-- Witness for C6: with children 0 and 2 capturing and child 1 ignoring, a
non-mouse event reaches only child 2 (the topmost-painted one). -/
theorem children_dispatch_reverse_order_witness :
    ((socket_phase gcChildren Event.NonMouse wBounds Cursor.Unavailable).1 =
        Status.Ignored ∧
      (GraphContainerState.mk none).drag_start_position = none) ∧
    (on_event gcChildren ⟨none⟩ Event.NonMouse wBounds
        Cursor.Unavailable).children_received =
      spec_dispatch gcChildren.content.enum.reverse Event.NonMouse ∧
    spec_dispatch gcChildren.content.enum.reverse Event.NonMouse = [2] :=
  ⟨⟨rfl, rfl⟩,
    children_dispatch_reverse_order gcChildren ⟨none⟩ Event.NonMouse wBounds
      Cursor.Unavailable rfl rfl,
    rfl⟩

/-- C7: a wheel-scrolled event that reaches priority 4 with the cursor
inside bounds publishes exactly one `on_scale (x, y, δy)` — the raw vertical
delta passed through unchanged for both line and pixel units — captures the
event, and leaves `drag_start_position` unchanged. -/
theorem wheel_scroll_scale_intent (gc : GraphContainer) (state : GraphContainerState)
    (bounds : Rect) (cursor : Cursor) (delta : ScrollDelta) (cp : Point)
    (hcur : cursor.position_in bounds = some cp)
    (hsc : gc.handlers.on_scale = true)
    (hch : ∀ c ∈ gc.content, c (.Mouse (.WheelScrolled delta)) = Status.Ignored) :
    (on_event gc state (.Mouse (.WheelScrolled delta)) bounds cursor).status =
        Status.Captured ∧
    (on_event gc state (.Mouse (.WheelScrolled delta)) bounds cursor).messages =
        [Intent.scaleAt cp.x cp.y delta.y] ∧
    (on_event gc state (.Mouse (.WheelScrolled delta)) bounds cursor).drag_start_position =
        state.drag_start_position := by
  have hsp : socket_phase gc (.Mouse (.WheelScrolled delta)) bounds cursor =
      (Status.Ignored, []) := by
    simp [socket_phase, hcur]
  rcases hdrag : state.drag_start_position with _ | start
  · have hall : ∀ c ∈ gc.content.enum.reverse,
        c.2 (.Mouse (.WheelScrolled delta)) = Status.Ignored := by
      intro c hcmem
      exact hch c.2 (snd_mem_of_mem_enum (List.mem_reverse.mp hcmem))
    have hd := dispatch_children_all_ignored (.Mouse (.WheelScrolled delta))
      gc.content.enum.reverse hall
    simp [on_event, hsp, phase23, phase4, hdrag, hcur, hd, hsc]
  · simp [on_event, hsp, phase23, phase4, hdrag, hcur, hsc]

/-- Witness for C7: scenario B — a line-unit scroll of `+1` at `(400, 300)`
publishes exactly `on_scale (400, 300, 1)` and keeps the drag state `none`. -/
theorem wheel_scroll_scale_intent_witness :
    (Cursor.position_in (Cursor.Available ⟨400, 300⟩) wBounds = some ⟨400, 300⟩ ∧
      gcPan.handlers.on_scale = true ∧
      (∀ c ∈ gcPan.content,
        c (.Mouse (.WheelScrolled (.Lines 0 1))) = Status.Ignored)) ∧
    (on_event gcPan ⟨none⟩ (.Mouse (.WheelScrolled (.Lines 0 1))) wBounds
        (.Available ⟨400, 300⟩)).status = Status.Captured ∧
    (on_event gcPan ⟨none⟩ (.Mouse (.WheelScrolled (.Lines 0 1))) wBounds
        (.Available ⟨400, 300⟩)).messages = [Intent.scaleAt 400 300 1] ∧
    (on_event gcPan ⟨none⟩ (.Mouse (.WheelScrolled (.Lines 0 1))) wBounds
        (.Available ⟨400, 300⟩)).drag_start_position = none := by
  have hcur : Cursor.position_in (Cursor.Available ⟨400, 300⟩) wBounds =
      some ⟨400, 300⟩ := by
    norm_num [Cursor.position_in, Rect.contains, wBounds]
  have hch : ∀ c ∈ gcPan.content,
      c (.Mouse (.WheelScrolled (.Lines 0 1))) = Status.Ignored := by
    simp [gcPan]
  exact ⟨⟨hcur, rfl, hch⟩,
    wheel_scroll_scale_intent gcPan ⟨none⟩ wBounds (.Available ⟨400, 300⟩)
      (.Lines 0 1) ⟨400, 300⟩ hcur rfl hch⟩

/-- C10 (implicit): while `drag_start_position` is `some`, `on_event` never
forwards the event — of any kind — to any child; and the drag state can only
become `none` through a left-button release with the cursor inside the
container bounds. -/
theorem drag_blocks_child_dispatch (gc : GraphContainer) (state : GraphContainerState)
    (event : Event) (bounds : Rect) (cursor : Cursor) (start : Point)
    (hdrag : state.drag_start_position = some start) :
    (on_event gc state event bounds cursor).children_received = [] ∧
    ((on_event gc state event bounds cursor).drag_start_position = none →
      event = Event.Mouse (MouseEvent.ButtonReleased MouseButton.Left) ∧
        cursor.position_in bounds ≠ none) := by
  rcases hsp : (socket_phase gc event bounds cursor).1 with _ | _
  case Captured =>
    rw [on_event_captured gc state event bounds cursor hsp]
    simp [hdrag]
  case Ignored =>
    simp only [on_event, hsp, reduceCtorEq, if_false]
    constructor
    · rw [phase4_preserves_received,
        phase23_drag_some_received gc state event bounds cursor start hdrag]
    · intro hnone
      have hmid : (phase23 gc state event bounds cursor).drag_start_position = none := by
        by_contra hne
        exact phase4_preserves_drag_ne_none gc event bounds cursor _ hne hnone
      exact phase23_drag_none gc state event bounds cursor start hdrag hmid

/-- Witness for C10: during a drag from `(10, 10)` a non-mouse event reaches
no child and leaves the drag state set. -/
theorem drag_blocks_child_dispatch_witness :
    ((GraphContainerState.mk (some ⟨10, 10⟩)).drag_start_position = some ⟨10, 10⟩) ∧
    (on_event gcPan ⟨some ⟨10, 10⟩⟩ Event.NonMouse wBounds
        Cursor.Unavailable).children_received = [] ∧
    ((on_event gcPan ⟨some ⟨10, 10⟩⟩ Event.NonMouse wBounds
        Cursor.Unavailable).drag_start_position = none →
      Event.NonMouse = Event.Mouse (MouseEvent.ButtonReleased MouseButton.Left) ∧
        Cursor.position_in Cursor.Unavailable wBounds ≠ none) :=
  ⟨rfl,
    (drag_blocks_child_dispatch gcPan ⟨some ⟨10, 10⟩⟩ Event.NonMouse wBounds
      Cursor.Unavailable ⟨10, 10⟩ rfl).1,
    (drag_blocks_child_dispatch gcPan ⟨some ⟨10, 10⟩⟩ Event.NonMouse wBounds
      Cursor.Unavailable ⟨10, 10⟩ rfl).2⟩

theorem normalize_scale_eq_div_zpow (s : ℝ) :
    normalize_scale s = s / (2 : ℝ) ^ ⌊Real.logb 2 s⌋ := by
  unfold normalize_scale epsilonF32
  by_cases h : ⌊Real.logb 2 s⌋ = 0
  · rw [h]
    norm_num
  · have h1 : (1 : ℝ) ≤ |((⌊Real.logb 2 s⌋ : ℤ) : ℝ)| := by
      rw [← Int.cast_abs]
      exact_mod_cast Int.one_le_abs h
    rw [if_pos (lt_of_lt_of_le (by norm_num) h1), Real.rpow_intCast]

theorem normalize_scale_mem_Ico (s : ℝ) (hs : 0 < s) :
    normalize_scale s ∈ Set.Ico (1 : ℝ) 2 := by
  rw [normalize_scale_eq_div_zpow]
  have hlogb : (2 : ℝ) ^ Real.logb 2 s = s :=
    Real.rpow_logb (by norm_num) (by norm_num) hs
  have hfl : ((⌊Real.logb 2 s⌋ : ℤ) : ℝ) ≤ Real.logb 2 s := Int.floor_le _
  have hlt : Real.logb 2 s < (⌊Real.logb 2 s⌋ : ℤ) + 1 := Int.lt_floor_add_one _
  have hle : (2 : ℝ) ^ ((⌊Real.logb 2 s⌋ : ℤ) : ℝ) ≤ s := by
    calc (2 : ℝ) ^ ((⌊Real.logb 2 s⌋ : ℤ) : ℝ) ≤ (2 : ℝ) ^ Real.logb 2 s :=
          Real.rpow_le_rpow_of_exponent_le one_le_two hfl
      _ = s := hlogb
  have hslt : s < (2 : ℝ) ^ (((⌊Real.logb 2 s⌋ : ℤ) : ℝ) + 1) := by
    calc s = (2 : ℝ) ^ Real.logb 2 s := hlogb.symm
      _ < (2 : ℝ) ^ (((⌊Real.logb 2 s⌋ : ℤ) : ℝ) + 1) :=
          Real.rpow_lt_rpow_of_exponent_lt one_lt_two hlt
  have hzpow : (2 : ℝ) ^ (⌊Real.logb 2 s⌋ : ℤ) = (2 : ℝ) ^ ((⌊Real.logb 2 s⌋ : ℤ) : ℝ) :=
    (Real.rpow_intCast 2 _).symm
  have hp : (0 : ℝ) < (2 : ℝ) ^ ((⌊Real.logb 2 s⌋ : ℤ) : ℝ) :=
    Real.rpow_pos_of_pos (by norm_num) _
  constructor
  · rw [hzpow]
    exact (one_le_div hp).mpr hle
  · rw [hzpow]
    rw [div_lt_iff₀ hp]
    calc s < (2 : ℝ) ^ (((⌊Real.logb 2 s⌋ : ℤ) : ℝ) + 1) := hslt
      _ = (2 : ℝ) ^ ((⌊Real.logb 2 s⌋ : ℤ) : ℝ) * 2 := by
          rw [Real.rpow_add (by norm_num), Real.rpow_one]
      _ = 2 * (2 : ℝ) ^ ((⌊Real.logb 2 s⌋ : ℤ) : ℝ) := by ring

theorem floor_logb_three : ⌊Real.logb 2 (3 : ℝ)⌋ = 1 := by
  rw [Int.floor_eq_iff]
  constructor
  · rw [show ((1 : ℤ) : ℝ) = 1 by norm_num]
    rw [Real.le_logb_iff_rpow_le one_lt_two (by norm_num)]
    rw [Real.rpow_one]
    norm_num
  · rw [show ((1 : ℤ) : ℝ) + 1 = 2 by norm_num]
    rw [Real.logb_lt_iff_lt_rpow one_lt_two (by norm_num)]
    rw [show (2 : ℝ) ^ (2 : ℝ) = 4 by
      rw [show (2 : ℝ) = ((2 : ℕ) : ℝ) by norm_num, Real.rpow_natCast]
      norm_num]
    norm_num

theorem floor_logb_four : ⌊Real.logb 2 (4 : ℝ)⌋ = 2 := by
  have h4 : (4 : ℝ) = (2 : ℝ) ^ (2 : ℝ) := by
    rw [show (2 : ℝ) = ((2 : ℕ) : ℝ) from by norm_num, Real.rpow_natCast]
    norm_num
  rw [h4, Real.logb_rpow (by norm_num) (by norm_num)]
  norm_num

/-- C8: `normalize_scale` computes `s / 2 ^ ⌊log₂ s⌋`; for every positive
scale the result lies in `[1, 2)`, and `normalize_scale 1 = 1`,
`normalize_scale 4 = 1`, `normalize_scale 3 = 1.5`. -/
theorem normalize_scale_spec :
    (∀ s : ℝ, 0 < s →
      normalize_scale s = s / (2 : ℝ) ^ ⌊Real.logb 2 s⌋ ∧
        normalize_scale s ∈ Set.Ico (1 : ℝ) 2) ∧
    normalize_scale 1 = 1 ∧ normalize_scale 4 = 1 ∧ normalize_scale 3 = 3 / 2 := by
  refine ⟨fun s hs => ⟨normalize_scale_eq_div_zpow s, normalize_scale_mem_Ico s hs⟩,
    ?_, ?_, ?_⟩
  · rw [normalize_scale_eq_div_zpow, Real.logb_one]
    norm_num
  · rw [normalize_scale_eq_div_zpow, floor_logb_four]
    norm_num
  · rw [normalize_scale_eq_div_zpow, floor_logb_three]
    norm_num

/-- Witness for C8: the universally quantified part instantiated at the
positive scale `3`. -/
theorem normalize_scale_spec_witness :
    (0 : ℝ) < 3 ∧
      (normalize_scale 3 = 3 / (2 : ℝ) ^ ⌊Real.logb 2 (3 : ℝ)⌋ ∧
        normalize_scale 3 ∈ Set.Ico (1 : ℝ) 2) :=
  ⟨by norm_num, normalize_scale_spec.1 3 (by norm_num)⟩

theorem unwrapOpt_none_bind {α β : Type} (f : α → Except Unit β) :
    (unwrapOpt none >>= f) = .error () := rfl

theorem unwrapOpt_some_bind {α β : Type} (a : α) (f : α → Except Unit β) :
    (unwrapOpt (some a) >>= f) = f a := rfl

theorem unwrapOpt_none_map {α β : Type} (f : α → β) :
    (f <$> unwrapOpt (none : Option α) : Except Unit β) = .error () := rfl

theorem unwrapOpt_some_map {α β : Type} (a : α) (f : α → β) :
    (f <$> unwrapOpt (some a) : Except Unit β) = .ok (f a) := rfl

/-- C9 (amended): `draw` panics exactly when one of the six guideline
appearance fields (three spacings, three colors) is unset; an unset
`background` is not accessed fatally — `draw_background` substitutes the
default color `rgb8 (44, 44, 44)` instead. -/
theorem draw_unwrap_guideline_fields (style : Appearance) (m : Matrix) (bounds : Rect) :
    (draw style m bounds = Except.error () ↔
      (style.minor_guidelines_spacing = none ∨ style.mid_guidelines_spacing = none ∨
        style.major_guidelines_spacing = none ∨ style.minor_guidelines_color = none ∨
        style.mid_guidelines_color = none ∨ style.major_guidelines_color = none)) ∧
    (style.background = none →
      draw_background bounds style =
        ⟨bounds.toRRect, colorBLACK, 0, BackgroundT.Color (ColorT.from_rgb8 44 44 44)⟩) := by
  constructor
  · obtain ⟨bg, msp, midsp, majsp, mc, midc, majc⟩ := style
    cases msp <;> cases midsp <;> cases majsp <;> cases mc <;> cases midc <;> cases majc <;>
      simp [draw, unwrapOpt_none_bind, unwrapOpt_some_bind, unwrapOpt_none_map,
        unwrapOpt_some_map]
  · intro h
    simp [draw_background, h]

/-- Counterexample to C9 as stated: with `background` unset (and the
guideline fields set) `draw` succeeds instead of panicking, so an unset
`background` is not fatal. -/
theorem background_none_draw_succeeds :
    styleNoBackground.background = none ∧
      (draw styleNoBackground Matrix.identity wBounds).isOk = true := ⟨rfl, rfl⟩

/-- Witness for the amended C9: an unset minor guideline color makes `draw`
panic, while an unset background merely selects the default fill. -/
theorem draw_unwrap_guideline_fields_witness :
    styleMissingColor.minor_guidelines_color = none ∧
      draw styleMissingColor Matrix.identity wBounds = Except.error () ∧
      styleNoBackground.background = none ∧
      draw_background wBounds styleNoBackground =
        ⟨wBounds.toRRect, colorBLACK, 0, BackgroundT.Color (ColorT.from_rgb8 44 44 44)⟩ := by
  refine ⟨rfl, ?_, rfl, ?_⟩
  · exact (draw_unwrap_guideline_fields styleMissingColor Matrix.identity wBounds).1.mpr
      (Or.inr (Or.inr (Or.inr (Or.inl rfl))))
  · exact (draw_unwrap_guideline_fields styleNoBackground Matrix.identity wBounds).2 rfl

end IcedNodeEditor
